import Mathlib

/-!
Shallow embedding of the colshape subsystem in
`code/components/extra-natives-five/src/ColshapeNatives.cpp`.

Floats are modelled as rationals, the `unordered_map<string, unique_ptr<ColShape>>`
registry as a list of shapes with unique ids, the grid
(`unordered_map<GridCellKey, ShapeSet>`) as a total function from cell keys to
finite sets of shape ids (a missing key yields the empty bucket, matching
`GetColShapesForPosition`), and the pointer sets `infiniteShapes_` and
`playerInsideColShapes_` as finite sets of shape ids (ids are unique across
live shapes, so they stand in for the pointers).
-/

attribute [local semireducible] Rat.mul Rat.add Rat.inv Rat.sub

structure Vec3 where
  x : ℚ
  y : ℚ
  z : ℚ
deriving DecidableEq, Repr

/-- `static constexpr float cellSize = 1000.0f`. -/
def cellSize : ℚ := 1000

/-- `static constexpr float kAutoInfiniteThreshold = 2000.0f`. -/
def kAutoInfiniteThreshold : ℚ := 2000

inductive ColShapeType where
  | Circle
  | Cube
  | Cylinder
  | Rectangle
  | Sphere
deriving DecidableEq, Repr

/-- The `ColShape` struct: id, type, geometry parameters, derived XY bounding
extents and the recorded occupied grid cells. -/
structure ColShape where
  id : String
  type : ColShapeType
  pos1 : Vec3
  pos2 : Vec3
  radius : ℚ
  height : ℚ
  infinite : Bool
  minX : ℚ
  maxX : ℚ
  minY : ℚ
  maxY : ℚ
  occupiedCells : List (Int × Int)
deriving DecidableEq, Repr

/-- The grid: `(cx, cy) -> set of shapes` with missing keys reading as empty. -/
def Grid : Type := Int × Int → Finset String

/-- The whole mutable state of `ColShapeManager`. -/
structure ColShapeManager where
  colShapes : List ColShape
  infiniteShapes : Finset String
  grid : Grid
  playerInside : Finset String

def emptyManager : ColShapeManager :=
  { colShapes := [], infiniteShapes := ∅, grid := fun _ => ∅, playerInside := ∅ }

/-- `colShapes_.find(colShapeId)`. -/
def lookupShape (m : ColShapeManager) (colShapeId : String) : Option ColShape :=
  m.colShapes.find? (fun s => s.id == colShapeId)

/-- `static_cast<int>(std::floor(v / cellSize))`. -/
def cellIndex (v : ℚ) : Int := ⌊v / cellSize⌋

/-- The grid cell key containing a position (as in `GetColShapesForPosition`). -/
def cellKeyOf (p : Vec3) : Int × Int := (cellIndex p.x, cellIndex p.y)

/-- The integers from `a` to `b` inclusive (empty when `b < a`), the index
space of a C `for (i = a; i <= b; ++i)` loop. -/
def intRange (a b : Int) : List Int :=
  (List.range (b + 1 - a).toNat).map (fun (i : Nat) => a + (i : Int))

/-- The `(cx, cy)` pairs covered by the nested loops of `AddToGrid`:
`floor(minX/cellSize)..floor(maxX/cellSize)` by the analogue for Y. -/
def shapeCells (s : ColShape) : List (Int × Int) :=
  (intRange (cellIndex s.minX) (cellIndex s.maxX)).flatMap fun cx =>
    (intRange (cellIndex s.minY) (cellIndex s.maxY)).map fun cy => (cx, cy)

/-- `ColShapeManager::MaybeMarkInfinite`: if the bounding box is at least
`kAutoInfiniteThreshold` wide or tall, force the infinite flag. -/
def MaybeMarkInfinite (s : ColShape) : ColShape :=
  if kAutoInfiniteThreshold ≤ s.maxX - s.minX ∨ kAutoInfiniteThreshold ≤ s.maxY - s.minY then
    { s with infinite := true }
  else
    s

/-- `ColShapeManager::AddToGrid`: insert the shape into every cell of its
bounding-box span and record those cells in `occupiedCells` (which is cleared
first).  The per-cell loop `grid_[key].insert(shape)` is rendered pointwise:
a key's bucket gains the shape exactly when the key is in the span. -/
def AddToGrid (g : Grid) (s : ColShape) : Grid × ColShape :=
  let cells := shapeCells s
  (fun k => if k ∈ cells then insert s.id (g k) else g k,
   { s with occupiedCells := cells })

/-- The common tail of every `Create*`: run `MaybeMarkInfinite`, then either
add to the grid or to `infiniteShapes_`, and store the shape in the registry. -/
def finishCreate (m : ColShapeManager) (s0 : ColShape) : ColShapeManager :=
  let s := MaybeMarkInfinite s0
  if s.infinite then
    { m with colShapes := s :: m.colShapes, infiniteShapes := insert s.id m.infiniteShapes }
  else
    let gs := AddToGrid m.grid s
    { m with colShapes := gs.2 :: m.colShapes, grid := gs.1 }

/-- The shape record built by `CreateCircle` (before `MaybeMarkInfinite`). -/
def mkCircle (colShapeId : String) (center : Vec3) (radius : ℚ) (infinite : Bool) : ColShape :=
  { id := colShapeId, type := ColShapeType.Circle, pos1 := center, pos2 := ⟨0, 0, 0⟩,
    radius := radius, height := 0, infinite := infinite,
    minX := center.x - radius, maxX := center.x + radius,
    minY := center.y - radius, maxY := center.y + radius, occupiedCells := [] }

/-- The shape record built by `CreateCube`. -/
def mkCube (colShapeId : String) (pos1 pos2 : Vec3) (infinite : Bool) : ColShape :=
  { id := colShapeId, type := ColShapeType.Cube, pos1 := pos1, pos2 := pos2,
    radius := 0, height := 0, infinite := infinite,
    minX := min pos1.x pos2.x, maxX := max pos1.x pos2.x,
    minY := min pos1.y pos2.y, maxY := max pos1.y pos2.y, occupiedCells := [] }

/-- The shape record built by `CreateCylinder`. -/
def mkCylinder (colShapeId : String) (center : Vec3) (radius height : ℚ)
    (infinite : Bool) : ColShape :=
  { id := colShapeId, type := ColShapeType.Cylinder, pos1 := center, pos2 := ⟨0, 0, 0⟩,
    radius := radius, height := height, infinite := infinite,
    minX := center.x - radius, maxX := center.x + radius,
    minY := center.y - radius, maxY := center.y + radius, occupiedCells := [] }

/-- The shape record built by `CreateRectangleZ`. -/
def mkRectangleZ (colShapeId : String) (x1 y1 x2 y2 bottomZ height : ℚ)
    (infinite : Bool) : ColShape :=
  { id := colShapeId, type := ColShapeType.Rectangle,
    pos1 := ⟨x1, y1, bottomZ⟩, pos2 := ⟨x2, y2, bottomZ⟩,
    radius := 0, height := height, infinite := infinite,
    minX := min x1 x2, maxX := max x1 x2,
    minY := min y1 y2, maxY := max y1 y2, occupiedCells := [] }

/-- The shape record built by `CreateSphere`. -/
def mkSphere (colShapeId : String) (center : Vec3) (radius : ℚ) (infinite : Bool) : ColShape :=
  { id := colShapeId, type := ColShapeType.Sphere, pos1 := center, pos2 := ⟨0, 0, 0⟩,
    radius := radius, height := 0, infinite := infinite,
    minX := center.x - radius, maxX := center.x + radius,
    minY := center.y - radius, maxY := center.y + radius, occupiedCells := [] }

/-- `ColShapeManager::CreateCircle`. -/
def CreateCircle (m : ColShapeManager) (colShapeId : String) (center : Vec3)
    (radius : ℚ) (infinite : Bool) : Bool × ColShapeManager :=
  if (lookupShape m colShapeId).isSome then (false, m)
  else (true, finishCreate m (mkCircle colShapeId center radius infinite))

/-- `ColShapeManager::CreateCube`. -/
def CreateCube (m : ColShapeManager) (colShapeId : String) (pos1 pos2 : Vec3)
    (infinite : Bool) : Bool × ColShapeManager :=
  if (lookupShape m colShapeId).isSome then (false, m)
  else (true, finishCreate m (mkCube colShapeId pos1 pos2 infinite))

/-- `ColShapeManager::CreateCylinder`. -/
def CreateCylinder (m : ColShapeManager) (colShapeId : String) (center : Vec3)
    (radius height : ℚ) (infinite : Bool) : Bool × ColShapeManager :=
  if (lookupShape m colShapeId).isSome then (false, m)
  else (true, finishCreate m (mkCylinder colShapeId center radius height infinite))

/-- `ColShapeManager::CreateRectangleZ`. -/
def CreateRectangleZ (m : ColShapeManager) (colShapeId : String)
    (x1 y1 x2 y2 bottomZ height : ℚ) (infinite : Bool) : Bool × ColShapeManager :=
  if (lookupShape m colShapeId).isSome then (false, m)
  else (true, finishCreate m (mkRectangleZ colShapeId x1 y1 x2 y2 bottomZ height infinite))

/-- `ColShapeManager::CreateRectangle`: alias that defaults `bottomZ = 0`. -/
def CreateRectangle (m : ColShapeManager) (colShapeId : String)
    (x1 y1 x2 y2 height : ℚ) (infinite : Bool) : Bool × ColShapeManager :=
  CreateRectangleZ m colShapeId x1 y1 x2 y2 0 height infinite

/-- `ColShapeManager::CreateSphere`. -/
def CreateSphere (m : ColShapeManager) (colShapeId : String) (center : Vec3)
    (radius : ℚ) (infinite : Bool) : Bool × ColShapeManager :=
  if (lookupShape m colShapeId).isSome then (false, m)
  else (true, finishCreate m (mkSphere colShapeId center radius infinite))

/-- `ColShapeManager::DeleteColShape`: erase from the infinite set or from every
occupied grid cell, from the player-inside set, then from the registry. -/
def DeleteColShape (m : ColShapeManager) (colShapeId : String) : Bool × ColShapeManager :=
  match lookupShape m colShapeId with
  | none => (false, m)
  | some s =>
    let g :=
      if s.infinite then m.grid
      else fun k => if k ∈ s.occupiedCells then (m.grid k).erase colShapeId else m.grid k
    let infSet := if s.infinite then m.infiniteShapes.erase colShapeId else m.infiniteShapes
    (true,
     { colShapes := m.colShapes.filter (fun t => t.id != colShapeId),
       infiniteShapes := infSet,
       grid := g,
       playerInside := m.playerInside.erase colShapeId })

/-- `ColShapeManager::GetColShapesForPosition`: the bucket of the single cell
containing the position. -/
def GetColShapesForPosition (m : ColShapeManager) (pos : Vec3) : Finset String :=
  m.grid (cellKeyOf pos)

/-- `ColShapeManager::IsPointInColShape`. -/
def IsPointInColShape (p : Vec3) (shape : ColShape) : Bool :=
  match shape.type with
  | ColShapeType.Circle =>
    let dx := p.x - shape.pos1.x
    let dy := p.y - shape.pos1.y
    decide (dx * dx + dy * dy ≤ shape.radius * shape.radius)
  | ColShapeType.Cube =>
    let minX := min shape.pos1.x shape.pos2.x
    let maxX := max shape.pos1.x shape.pos2.x
    let minY := min shape.pos1.y shape.pos2.y
    let maxY := max shape.pos1.y shape.pos2.y
    let minZ := min shape.pos1.z shape.pos2.z
    let maxZ := max shape.pos1.z shape.pos2.z
    decide (minX ≤ p.x ∧ p.x ≤ maxX ∧ minY ≤ p.y ∧ p.y ≤ maxY ∧ minZ ≤ p.z ∧ p.z ≤ maxZ)
  | ColShapeType.Cylinder =>
    let dx := p.x - shape.pos1.x
    let dy := p.y - shape.pos1.y
    if shape.radius * shape.radius < dx * dx + dy * dy then false
    else
      let bottomZ := shape.pos1.z
      let topZ := shape.pos1.z + shape.height
      if topZ < bottomZ then decide (topZ ≤ p.z ∧ p.z ≤ bottomZ)
      else decide (bottomZ ≤ p.z ∧ p.z ≤ topZ)
  | ColShapeType.Rectangle =>
    let minX := min shape.pos1.x shape.pos2.x
    let maxX := max shape.pos1.x shape.pos2.x
    let minY := min shape.pos1.y shape.pos2.y
    let maxY := max shape.pos1.y shape.pos2.y
    let bottomZ := shape.pos1.z
    let topZ := shape.pos1.z + shape.height
    let inside2D := decide (minX ≤ p.x ∧ p.x ≤ maxX ∧ minY ≤ p.y ∧ p.y ≤ maxY)
    if topZ < bottomZ then inside2D && decide (topZ ≤ p.z ∧ p.z ≤ bottomZ)
    else inside2D && decide (bottomZ ≤ p.z ∧ p.z ≤ topZ)
  | ColShapeType.Sphere =>
    let dx := p.x - shape.pos1.x
    let dy := p.y - shape.pos1.y
    let dz := p.z - shape.pos1.z
    decide (dx * dx + dy * dy + dz * dz ≤ shape.radius * shape.radius)

/-- Containment lifted to a registered id: look the shape up and test it
(`Update` dereferences live shape pointers, which always resolve). -/
def containsById (m : ColShapeManager) (pos : Vec3) (colShapeId : String) : Bool :=
  match lookupShape m colShapeId with
  | some s => IsPointInColShape pos s
  | none => false

/-- The `currentInside` set built by `Update`: the position's grid bucket
filtered by containment, together with the infinite shapes filtered by
containment. -/
def currentInsideSet (m : ColShapeManager) (pos : Vec3) : Finset String :=
  (GetColShapesForPosition m pos).filter (fun i => containsById m pos i = true) ∪
    m.infiniteShapes.filter (fun i => containsById m pos i = true)

/-- `shapesNear` of the spec: the broad-phase candidates `Update` iterates,
i.e. the position's grid bucket together with every infinite shape. -/
def candidateSet (m : ColShapeManager) (pos : Vec3) : Finset String :=
  GetColShapesForPosition m pos ∪ m.infiniteShapes

/-- The events of one tick: `newlyEntered`, `newlyLeft`, and the freshly
computed `currentInside` containment set. -/
structure TickResult where
  entered : Finset String
  left : Finset String
  inside : Finset String
deriving DecidableEq

/-- The diff-and-publish part of `ColShapeManager::Update`, given the sampled
player position: compute `currentInside`, diff it against
`playerInsideColShapes_`, replace that set, and report the transitions. -/
def Update (m : ColShapeManager) (playerPos : Vec3) : ColShapeManager × TickResult :=
  let currentInside := currentInsideSet m playerPos
  let newlyEntered := currentInside \ m.playerInside
  let newlyLeft := m.playerInside \ currentInside
  ({ m with playerInside := currentInside },
   { entered := newlyEntered, left := newlyLeft, inside := currentInside })

/-- Run one `Update` per position in the list, collecting every tick's result. -/
def runTicks (m : ColShapeManager) (positions : List Vec3) :
    ColShapeManager × List TickResult :=
  match positions with
  | [] => (m, [])
  | p :: ps =>
    let step := Update m p
    let rest := runTicks step.1 ps
    (rest.1, step.2 :: rest.2)

/-- One external mutation request (the registry API of §4.3). -/
inductive Op where
  | circle (colShapeId : String) (center : Vec3) (radius : ℚ) (infinite : Bool)
  | cube (colShapeId : String) (pos1 pos2 : Vec3) (infinite : Bool)
  | cylinder (colShapeId : String) (center : Vec3) (radius height : ℚ) (infinite : Bool)
  | rectangleZ (colShapeId : String) (x1 y1 x2 y2 bottomZ height : ℚ) (infinite : Bool)
  | rectangle (colShapeId : String) (x1 y1 x2 y2 height : ℚ) (infinite : Bool)
  | sphere (colShapeId : String) (center : Vec3) (radius : ℚ) (infinite : Bool)
  | remove (colShapeId : String)
deriving DecidableEq

/-- Apply one mutation request to the manager state. -/
def applyOp (m : ColShapeManager) (op : Op) : ColShapeManager :=
  match op with
  | Op.circle i c r b => (CreateCircle m i c r b).2
  | Op.cube i p1 p2 b => (CreateCube m i p1 p2 b).2
  | Op.cylinder i c r h b => (CreateCylinder m i c r h b).2
  | Op.rectangleZ i x1 y1 x2 y2 bz h b => (CreateRectangleZ m i x1 y1 x2 y2 bz h b).2
  | Op.rectangle i x1 y1 x2 y2 h b => (CreateRectangle m i x1 y1 x2 y2 h b).2
  | Op.sphere i c r b => (CreateSphere m i c r b).2
  | Op.remove i => (DeleteColShape m i).2

/-- Run a sequence of mutation requests from the empty manager. -/
def runOps (ops : List Op) : ColShapeManager :=
  ops.foldl applyOp emptyManager

/-- Being indexed by the spatial grid: a populated occupied-cells list, presence
in each recorded bucket, and absence from the infinite overflow set. -/
def InGridIndex (m : ColShapeManager) (s : ColShape) : Prop :=
  s.occupiedCells ≠ [] ∧ (∀ c ∈ s.occupiedCells, s.id ∈ m.grid c) ∧ s.id ∉ m.infiniteShapes

/-- Being indexed by the infinite overflow set: an empty occupied-cells list,
membership in the set, and absence from every grid bucket. -/
def InInfiniteIndex (m : ColShapeManager) (s : ColShape) : Prop :=
  s.occupiedCells = [] ∧ s.id ∈ m.infiniteShapes ∧ ∀ k, s.id ∉ m.grid k

/-- Whether a request supplies a nonnegative radius (trivially true for the
kinds that take no radius and for deletion). -/
def opRadiusOK : Op → Bool
  | Op.circle _ _ r _ => decide (0 ≤ r)
  | Op.cylinder _ _ r _ _ => decide (0 ≤ r)
  | Op.sphere _ _ r _ => decide (0 ≤ r)
  | _ => true

/-! ### Basic lemmas about the embedded operations -/

theorem mem_intRange {a b x : Int} : x ∈ intRange a b ↔ a ≤ x ∧ x ≤ b := by
  unfold intRange
  rw [List.mem_map]
  constructor
  · rintro ⟨i, hi, rfl⟩
    rw [List.mem_range] at hi
    omega
  · intro h
    exact ⟨(x - a).toNat, List.mem_range.mpr (by omega), by omega⟩

theorem mem_shapeCells {s : ColShape} {c : Int × Int} :
    c ∈ shapeCells s ↔
      (cellIndex s.minX ≤ c.1 ∧ c.1 ≤ cellIndex s.maxX) ∧
      (cellIndex s.minY ≤ c.2 ∧ c.2 ≤ cellIndex s.maxY) := by
  obtain ⟨cx, cy⟩ := c
  simp only [shapeCells, List.mem_flatMap, List.mem_map, Prod.mk.injEq]
  constructor
  · rintro ⟨a, ha, b, hb, rfl, rfl⟩
    exact ⟨mem_intRange.mp ha, mem_intRange.mp hb⟩
  · rintro ⟨hx, hy⟩
    exact ⟨cx, mem_intRange.mpr hx, cy, mem_intRange.mpr hy, rfl, rfl⟩

theorem MaybeMarkInfinite_id (s : ColShape) : (MaybeMarkInfinite s).id = s.id := by
  unfold MaybeMarkInfinite
  split <;> rfl

theorem MaybeMarkInfinite_occupiedCells (s : ColShape) :
    (MaybeMarkInfinite s).occupiedCells = s.occupiedCells := by
  unfold MaybeMarkInfinite
  split <;> rfl

theorem shapeCells_MaybeMarkInfinite (s : ColShape) :
    shapeCells (MaybeMarkInfinite s) = shapeCells s := by
  unfold MaybeMarkInfinite
  split <;> rfl

theorem MaybeMarkInfinite_infinite (s : ColShape) :
    (MaybeMarkInfinite s).infinite =
      (s.infinite || decide (kAutoInfiniteThreshold ≤ s.maxX - s.minX) ||
        decide (kAutoInfiniteThreshold ≤ s.maxY - s.minY)) := by
  unfold MaybeMarkInfinite
  split
  · next h =>
    rcases h with h | h <;> simp [h]
  · next h =>
    rw [not_or] at h
    simp [h.1, h.2]

theorem cellIndex_mono {a b : ℚ} (h : a ≤ b) : cellIndex a ≤ cellIndex b := by
  unfold cellIndex
  refine Int.floor_le_floor ?_
  have hc : (0 : ℚ) < cellSize := by norm_num [cellSize]
  exact (div_le_div_iff_of_pos_right hc).mpr h

theorem shapeCells_ne_nil {s : ColShape} (hx : s.minX ≤ s.maxX) (hy : s.minY ≤ s.maxY) :
    shapeCells s ≠ [] := by
  have h : (cellIndex s.minX, cellIndex s.minY) ∈ shapeCells s :=
    mem_shapeCells.mpr ⟨⟨le_refl _, cellIndex_mono hx⟩, le_refl _, cellIndex_mono hy⟩
  exact List.ne_nil_of_mem h

theorem lookupShape_eq_none {m : ColShapeManager} {i : String} :
    lookupShape m i = none ↔ ∀ s ∈ m.colShapes, s.id ≠ i := by
  simp [lookupShape, List.find?_eq_none]

theorem lookupShape_finishCreate_self (m : ColShapeManager) (s : ColShape) :
    (lookupShape (finishCreate m s) s.id).isSome = true := by
  simp only [finishCreate]
  by_cases hb : (MaybeMarkInfinite s).infinite = true
  · rw [if_pos hb]
    simp [lookupShape, List.find?_cons, MaybeMarkInfinite_id]
  · rw [if_neg hb]
    simp [lookupShape, AddToGrid, List.find?_cons, MaybeMarkInfinite_id]

/-! ### Claim theorems -/

/-- Claim C1: on every tick the scheduler emits enter events exactly for the
shapes in `currentInside` but not in `previousInside`, leave events exactly for
the shapes in `previousInside` but not in `currentInside`, and then replaces
`previousInside` by `currentInside`; concretely, a run whose first tick is
inside exactly shapes A and B and whose second tick is inside exactly B and C
emits, on the second tick, exactly one enter for C and one leave for A and
nothing for B. -/
theorem C1_scheduler_diff :
    (∀ (m : ColShapeManager) (pos : Vec3),
      (Update m pos).2.entered = currentInsideSet m pos \ m.playerInside ∧
      (Update m pos).2.left = m.playerInside \ currentInsideSet m pos ∧
      (Update m pos).1.playerInside = currentInsideSet m pos) ∧
    (runTicks
        (runOps [Op.circle "A" ⟨0, 0, 0⟩ 1 false, Op.circle "B" ⟨0, 0, 0⟩ 300 false,
          Op.circle "C" ⟨200, 0, 0⟩ 50 false])
        [⟨0, 0, 0⟩, ⟨160, 0, 0⟩]).2.map (fun r => (r.inside, r.entered, r.left)) =
      [({"A", "B"}, {"A", "B"}, ∅), ({"B", "C"}, {"C"}, {"A"})] :=
  ⟨fun _ _ => ⟨rfl, rfl, rfl⟩, by decide⟩

/-- Claim C2: calling any create operation with an identifier that is already
registered returns failure and leaves the whole manager state (registry, grid,
infinite set, player-inside set) unchanged. -/
theorem C2_duplicate_create_fails (m : ColShapeManager) (colShapeId : String)
    (h : (lookupShape m colShapeId).isSome = true) :
    (∀ center radius b, CreateCircle m colShapeId center radius b = (false, m)) ∧
    (∀ pos1 pos2 b, CreateCube m colShapeId pos1 pos2 b = (false, m)) ∧
    (∀ center radius height b, CreateCylinder m colShapeId center radius height b = (false, m)) ∧
    (∀ x1 y1 x2 y2 bz hh b, CreateRectangleZ m colShapeId x1 y1 x2 y2 bz hh b = (false, m)) ∧
    (∀ x1 y1 x2 y2 hh b, CreateRectangle m colShapeId x1 y1 x2 y2 hh b = (false, m)) ∧
    (∀ center radius b, CreateSphere m colShapeId center radius b = (false, m)) := by
  refine ⟨?_, ?_, ?_, ?_, ?_, ?_⟩ <;> intros <;>
    simp [CreateCircle, CreateCube, CreateCylinder, CreateRectangleZ, CreateRectangle,
      CreateSphere, h]

/-- Witness for C2 at a concrete state: with "dup" registered, re-creating
"dup" as a circle fails and returns the state unchanged. -/
theorem C2_duplicate_create_fails_witness :
    (lookupShape (runOps [Op.circle "dup" ⟨0, 0, 0⟩ 5 false]) "dup").isSome = true ∧
    CreateCircle (runOps [Op.circle "dup" ⟨0, 0, 0⟩ 5 false]) "dup" ⟨1, 1, 1⟩ 2 false =
      (false, runOps [Op.circle "dup" ⟨0, 0, 0⟩ 5 false]) :=
  ⟨by decide,
   (C2_duplicate_create_fails (runOps [Op.circle "dup" ⟨0, 0, 0⟩ 5 false]) "dup"
      (by decide)).1 ⟨1, 1, 1⟩ 2 false⟩

/-- Counterexample to claim C3: a create operation called with the empty
identifier string is not rejected — on the empty manager, `CreateCircle` with
id `""` returns success and registers a shape under `""`. -/
theorem C3_counterexample_empty_id_accepted :
    (CreateCircle emptyManager "" ⟨0, 0, 0⟩ 1 false).1 = true ∧
    (lookupShape (CreateCircle emptyManager "" ⟨0, 0, 0⟩ 1 false).2 "").isSome = true := by
  constructor
  · decide
  · decide

/-- Claim C3 as amended: create operations do not special-case the empty
identifier; whenever `""` is not already registered, every create operation
called with the empty identifier succeeds and registers a shape under it. -/
theorem C3_empty_id_not_special (m : ColShapeManager) (h : lookupShape m "" = none) :
    (∀ center radius b, (CreateCircle m "" center radius b).1 = true ∧
      (lookupShape (CreateCircle m "" center radius b).2 "").isSome = true) ∧
    (∀ pos1 pos2 b, (CreateCube m "" pos1 pos2 b).1 = true ∧
      (lookupShape (CreateCube m "" pos1 pos2 b).2 "").isSome = true) ∧
    (∀ center radius height b, (CreateCylinder m "" center radius height b).1 = true ∧
      (lookupShape (CreateCylinder m "" center radius height b).2 "").isSome = true) ∧
    (∀ x1 y1 x2 y2 bz hh b, (CreateRectangleZ m "" x1 y1 x2 y2 bz hh b).1 = true ∧
      (lookupShape (CreateRectangleZ m "" x1 y1 x2 y2 bz hh b).2 "").isSome = true) ∧
    (∀ x1 y1 x2 y2 hh b, (CreateRectangle m "" x1 y1 x2 y2 hh b).1 = true ∧
      (lookupShape (CreateRectangle m "" x1 y1 x2 y2 hh b).2 "").isSome = true) ∧
    (∀ center radius b, (CreateSphere m "" center radius b).1 = true ∧
      (lookupShape (CreateSphere m "" center radius b).2 "").isSome = true) := by
  have hns : (lookupShape m "").isSome = false := by rw [h]; rfl
  refine ⟨?_, ?_, ?_, ?_, ?_, ?_⟩ <;> intros <;>
    constructor <;>
    simp [CreateCircle, CreateCube, CreateCylinder, CreateRectangleZ, CreateRectangle,
      CreateSphere, hns] <;>
    exact lookupShape_finishCreate_self m _

/-- Witness for the amended C3: on the empty manager the empty identifier is
accepted by `CreateSphere` and the shape is registered. -/
theorem C3_empty_id_not_special_witness :
    (CreateSphere emptyManager "" ⟨2, 3, 4⟩ 7 false).1 = true ∧
    (lookupShape (CreateSphere emptyManager "" ⟨2, 3, 4⟩ 7 false).2 "").isSome = true :=
  (C3_empty_id_not_special emptyManager (by decide)).2.2.2.2.2 ⟨2, 3, 4⟩ 7 false

/-- Claim C7: the containment boundary is closed for every kind: a Circle or
Sphere contains a point at squared distance exactly radius-squared; a Cylinder
or Rectangle (with its Z interval normalized so the lower bound is the smaller
of baseZ and baseZ+height) contains a point whose Z sits exactly on either
bound (given the planar test holds), and rejects any point strictly beyond
either bound. -/
theorem C7_closed_boundaries :
    ∀ (p c : Vec3) (radius height x1 y1 x2 y2 bz : ℚ) (i : String) (fl : Bool),
    ((p.x - c.x) * (p.x - c.x) + (p.y - c.y) * (p.y - c.y) = radius * radius →
      IsPointInColShape p (mkCircle i c radius fl) = true) ∧
    ((p.x - c.x) * (p.x - c.x) + (p.y - c.y) * (p.y - c.y) + (p.z - c.z) * (p.z - c.z) =
        radius * radius →
      IsPointInColShape p (mkSphere i c radius fl) = true) ∧
    ((p.x - c.x) * (p.x - c.x) + (p.y - c.y) * (p.y - c.y) ≤ radius * radius →
      (p.z = min c.z (c.z + height) ∨ p.z = max c.z (c.z + height)) →
      IsPointInColShape p (mkCylinder i c radius height fl) = true) ∧
    ((p.z < min c.z (c.z + height) ∨ max c.z (c.z + height) < p.z) →
      IsPointInColShape p (mkCylinder i c radius height fl) = false) ∧
    ((min x1 x2 ≤ p.x ∧ p.x ≤ max x1 x2 ∧ min y1 y2 ≤ p.y ∧ p.y ≤ max y1 y2) →
      (p.z = min bz (bz + height) ∨ p.z = max bz (bz + height)) →
      IsPointInColShape p (mkRectangleZ i x1 y1 x2 y2 bz height fl) = true) ∧
    ((p.z < min bz (bz + height) ∨ max bz (bz + height) < p.z) →
      IsPointInColShape p (mkRectangleZ i x1 y1 x2 y2 bz height fl) = false) := by
  intro p c radius height x1 y1 x2 y2 bz i fl
  refine ⟨?_, ?_, ?_, ?_, ?_, ?_⟩
  · intro h
    simp only [IsPointInColShape, mkCircle, decide_eq_true_iff]
    exact le_of_eq h
  · intro h
    simp only [IsPointInColShape, mkSphere, decide_eq_true_iff]
    exact le_of_eq h
  · intro hpl hz
    have h1 : ¬ (radius * radius < (p.x - c.x) * (p.x - c.x) + (p.y - c.y) * (p.y - c.y)) :=
      not_lt.mpr hpl
    simp only [IsPointInColShape, mkCylinder]
    rw [if_neg h1]
    rcases lt_or_le (c.z + height) c.z with hc | hc
    · rw [if_pos hc, decide_eq_true_iff]
      rw [min_eq_right (le_of_lt hc), max_eq_left (le_of_lt hc)] at hz
      rcases hz with hz | hz <;> rw [hz] <;> exact ⟨by linarith, by linarith⟩
    · rw [if_neg (not_lt.mpr hc), decide_eq_true_iff]
      rw [min_eq_left hc, max_eq_right hc] at hz
      rcases hz with hz | hz <;> rw [hz] <;> exact ⟨by linarith, by linarith⟩
  · intro hz
    simp only [IsPointInColShape, mkCylinder]
    rcases lt_or_le (c.z + height) c.z with hc | hc
    · rw [min_eq_right (le_of_lt hc), max_eq_left (le_of_lt hc)] at hz
      rw [if_pos hc]
      split_ifs with h1
      · rfl
      · rw [decide_eq_false_iff_not]
        rintro ⟨h3, h4⟩
        rcases hz with hz | hz <;> linarith
    · rw [min_eq_left hc, max_eq_right hc] at hz
      rw [if_neg (not_lt.mpr hc)]
      split_ifs with h1
      · rfl
      · rw [decide_eq_false_iff_not]
        rintro ⟨h3, h4⟩
        rcases hz with hz | hz <;> linarith
  · intro hpl hz
    simp only [IsPointInColShape, mkRectangleZ]
    rcases lt_or_le (bz + height) bz with hc | hc
    · rw [if_pos hc]
      rw [min_eq_right (le_of_lt hc), max_eq_left (le_of_lt hc)] at hz
      have h2d : decide (min x1 x2 ≤ p.x ∧ p.x ≤ max x1 x2 ∧ min y1 y2 ≤ p.y ∧ p.y ≤ max y1 y2)
          = true := decide_eq_true_iff.mpr hpl
      rw [h2d, Bool.true_and, decide_eq_true_iff]
      rcases hz with hz | hz <;> rw [hz] <;> exact ⟨by linarith, by linarith⟩
    · rw [if_neg (not_lt.mpr hc)]
      rw [min_eq_left hc, max_eq_right hc] at hz
      have h2d : decide (min x1 x2 ≤ p.x ∧ p.x ≤ max x1 x2 ∧ min y1 y2 ≤ p.y ∧ p.y ≤ max y1 y2)
          = true := decide_eq_true_iff.mpr hpl
      rw [h2d, Bool.true_and, decide_eq_true_iff]
      rcases hz with hz | hz <;> rw [hz] <;> exact ⟨by linarith, by linarith⟩
  · intro hz
    simp only [IsPointInColShape, mkRectangleZ]
    rcases lt_or_le (bz + height) bz with hc | hc
    · rw [min_eq_right (le_of_lt hc), max_eq_left (le_of_lt hc)] at hz
      rw [if_pos hc]
      have hd : decide (bz + height ≤ p.z ∧ p.z ≤ bz) = false := by
        rw [decide_eq_false_iff_not]
        rintro ⟨h3, h4⟩
        rcases hz with hz | hz <;> linarith
      rw [hd, Bool.and_false]
    · rw [min_eq_left hc, max_eq_right hc] at hz
      rw [if_neg (not_lt.mpr hc)]
      have hd : decide (bz ≤ p.z ∧ p.z ≤ bz + height) = false := by
        rw [decide_eq_false_iff_not]
        rintro ⟨h3, h4⟩
        rcases hz with hz | hz <;> linarith
      rw [hd, Bool.and_false]

/-- Witness for C7 at concrete boundary points of each kind. -/
theorem C7_closed_boundaries_witness :
    IsPointInColShape ⟨3, 4, 0⟩ (mkCircle "c" ⟨0, 0, 0⟩ 5 false) = true ∧
    IsPointInColShape ⟨0, 3, 4⟩ (mkSphere "s" ⟨0, 0, 0⟩ 5 false) = true ∧
    IsPointInColShape ⟨1, 0, -3⟩ (mkCylinder "y" ⟨0, 0, 0⟩ 2 (-3) false) = true ∧
    IsPointInColShape ⟨0, 0, 1⟩ (mkCylinder "y" ⟨0, 0, 0⟩ 2 (-3) false) = false ∧
    IsPointInColShape ⟨2, 2, 3⟩ (mkRectangleZ "r" 0 0 4 4 1 2 false) = true ∧
    IsPointInColShape ⟨2, 2, 4⟩ (mkRectangleZ "r" 0 0 4 4 1 2 false) = false := by
  have h := C7_closed_boundaries
  exact ⟨(h ⟨3, 4, 0⟩ ⟨0, 0, 0⟩ 5 0 0 0 0 0 0 "c" false).1 (by decide),
    (h ⟨0, 3, 4⟩ ⟨0, 0, 0⟩ 5 0 0 0 0 0 0 "s" false).2.1 (by decide),
    (h ⟨1, 0, -3⟩ ⟨0, 0, 0⟩ 2 (-3) 0 0 0 0 0 "y" false).2.2.1 (by decide) (by decide),
    (h ⟨0, 0, 1⟩ ⟨0, 0, 0⟩ 2 (-3) 0 0 0 0 0 "y" false).2.2.2.1 (by decide),
    (h ⟨2, 2, 3⟩ ⟨0, 0, 0⟩ 0 2 0 0 4 4 1 "r" false).2.2.2.2.1 (by decide) (by decide),
    (h ⟨2, 2, 4⟩ ⟨0, 0, 0⟩ 0 2 0 0 4 4 1 "r" false).2.2.2.2.2 (by decide)⟩

/-- Claim C10: containment is invariant under parameter symmetries the spec
never states: swapping the two corners of a Cube or Rectangle, and negating
the radius of a Circle, Cylinder or Sphere, leave every containment answer
unchanged. -/
theorem C10_parameter_symmetries :
    ∀ (p a b c : Vec3) (radius height x1 y1 x2 y2 bz : ℚ) (i : String) (fl : Bool),
    IsPointInColShape p (mkCube i a b fl) = IsPointInColShape p (mkCube i b a fl) ∧
    IsPointInColShape p (mkRectangleZ i x1 y1 x2 y2 bz height fl) =
      IsPointInColShape p (mkRectangleZ i x2 y2 x1 y1 bz height fl) ∧
    IsPointInColShape p (mkCircle i c radius fl) =
      IsPointInColShape p (mkCircle i c (-radius) fl) ∧
    IsPointInColShape p (mkCylinder i c radius height fl) =
      IsPointInColShape p (mkCylinder i c (-radius) height fl) ∧
    IsPointInColShape p (mkSphere i c radius fl) =
      IsPointInColShape p (mkSphere i c (-radius) fl) := by
  intro p a b c radius height x1 y1 x2 y2 bz i fl
  refine ⟨?_, ?_, ?_, ?_, ?_⟩ <;>
    simp [IsPointInColShape, mkCube, mkRectangleZ, mkCircle, mkCylinder, mkSphere,
      min_comm, max_comm, neg_mul_neg]

/-- Claim C4: a non-infinite shape is inserted into every grid cell its XY
bounding box spans, so after creation the broad-phase query returns it for
every point lying in any of those cells, and after a successful delete it is
returned for no point at all. -/
theorem C4_grid_coverage (m : ColShapeManager) (s : ColShape)
    (hfresh : ∀ k, s.id ∉ m.grid k)
    (hinf : (MaybeMarkInfinite s).infinite = false) :
    (∀ p : Vec3, cellKeyOf p ∈ shapeCells s →
      s.id ∈ GetColShapesForPosition (finishCreate m s) p) ∧
    (DeleteColShape (finishCreate m s) s.id).1 = true ∧
    (∀ p : Vec3,
      s.id ∉ GetColShapesForPosition ((DeleteColShape (finishCreate m s) s.id).2) p) := by
  have hb : ¬ ((MaybeMarkInfinite s).infinite = true) := by
    rw [hinf]
    exact Bool.false_ne_true
  have hcells := shapeCells_MaybeMarkInfinite s
  have hid := MaybeMarkInfinite_id s
  have hfc : finishCreate m s =
      { colShapes := { MaybeMarkInfinite s with occupiedCells := shapeCells s } :: m.colShapes,
        infiniteShapes := m.infiniteShapes,
        grid := fun k => if k ∈ shapeCells s then insert s.id (m.grid k) else m.grid k,
        playerInside := m.playerInside } := by
    simp only [finishCreate, AddToGrid, if_neg hb, hcells, hid]
  have hlk : lookupShape (finishCreate m s) s.id =
      some { MaybeMarkInfinite s with occupiedCells := shapeCells s } := by
    rw [hfc]
    simp [lookupShape, List.find?_cons, hid]
  refine ⟨?_, ?_, ?_⟩
  · intro p hp
    rw [hfc]
    show s.id ∈ (if cellKeyOf p ∈ shapeCells s
      then insert s.id (m.grid (cellKeyOf p)) else m.grid (cellKeyOf p))
    rw [if_pos hp]
    exact Finset.mem_insert_self _ _
  · simp only [DeleteColShape, hlk]
  · intro p
    have ht' : ({ MaybeMarkInfinite s with occupiedCells := shapeCells s }).infinite = true ↔
        False := by
      simp [hinf]
    simp only [DeleteColShape, hlk, ht', if_false]
    by_cases hk : cellKeyOf p ∈ shapeCells s
    · show s.id ∉ (if cellKeyOf p ∈ shapeCells s
        then ((finishCreate m s).grid (cellKeyOf p)).erase s.id
        else (finishCreate m s).grid (cellKeyOf p))
      rw [if_pos hk]
      exact Finset.not_mem_erase _ _
    · show s.id ∉ (if cellKeyOf p ∈ shapeCells s
        then ((finishCreate m s).grid (cellKeyOf p)).erase s.id
        else (finishCreate m s).grid (cellKeyOf p))
      rw [if_neg hk, hfc]
      show s.id ∉ (if cellKeyOf p ∈ shapeCells s
        then insert s.id (m.grid (cellKeyOf p)) else m.grid (cellKeyOf p))
      rw [if_neg hk]
      exact hfresh _

/-- Witness for C4: a radius-5 circle at the origin on the empty manager. -/
theorem C4_grid_coverage_witness :
    (∀ p : Vec3, cellKeyOf p ∈ shapeCells (mkCircle "w" ⟨0, 0, 0⟩ 5 false) →
      "w" ∈ GetColShapesForPosition
        (finishCreate emptyManager (mkCircle "w" ⟨0, 0, 0⟩ 5 false)) p) ∧
    (DeleteColShape (finishCreate emptyManager (mkCircle "w" ⟨0, 0, 0⟩ 5 false)) "w").1 = true ∧
    (∀ p : Vec3, "w" ∉ GetColShapesForPosition
      ((DeleteColShape (finishCreate emptyManager (mkCircle "w" ⟨0, 0, 0⟩ 5 false)) "w").2) p) :=
  C4_grid_coverage emptyManager (mkCircle "w" ⟨0, 0, 0⟩ 5 false)
    (fun _ => Finset.not_mem_empty _) (by decide)

/-- Claim C5: a created shape is effectively infinite exactly when the caller
requested it or its bounding box is at least `kAutoInfiniteThreshold` (2000)
wide or tall; an effectively infinite shape goes into the infinite overflow
set and is a broad-phase candidate from every position, whatever the grid
cell. -/
theorem C5_infinite_promotion (m : ColShapeManager) (s : ColShape) :
    ((MaybeMarkInfinite s).infinite =
      (s.infinite || decide (kAutoInfiniteThreshold ≤ s.maxX - s.minX) ||
        decide (kAutoInfiniteThreshold ≤ s.maxY - s.minY))) ∧
    ((MaybeMarkInfinite s).infinite = true →
      s.id ∈ (finishCreate m s).infiniteShapes ∧
      ∀ pos : Vec3, s.id ∈ candidateSet (finishCreate m s) pos) := by
  refine ⟨MaybeMarkInfinite_infinite s, fun hinf => ?_⟩
  have hfc : finishCreate m s =
      { m with colShapes := MaybeMarkInfinite s :: m.colShapes,
               infiniteShapes := insert s.id m.infiniteShapes } := by
    simp only [finishCreate, if_pos hinf, MaybeMarkInfinite_id]
  rw [hfc]
  refine ⟨Finset.mem_insert_self _ _, fun pos => ?_⟩
  show s.id ∈ GetColShapesForPosition _ pos ∪ insert s.id m.infiniteShapes
  exact Finset.mem_union_right _ (Finset.mem_insert_self _ _)


/-- Witness for C5: a 3000-wide rectangle is promoted to infinite without the
caller requesting it, and is a candidate from every position. -/
theorem C5_infinite_promotion_witness :
    "big" ∈ (finishCreate emptyManager (mkRectangleZ "big" 0 0 3000 10 0 5 false)).infiniteShapes ∧
    ∀ pos : Vec3, "big" ∈
      candidateSet (finishCreate emptyManager (mkRectangleZ "big" 0 0 3000 10 0 5 false)) pos :=
  (C5_infinite_promotion emptyManager (mkRectangleZ "big" 0 0 3000 10 0 5 false)).2 (by decide)

theorem dead_id_stays_out (i : String) :
    ∀ (ps : List Vec3) (m : ColShapeManager), lookupShape m i = none → i ∉ m.playerInside →
      (∀ r ∈ (runTicks m ps).2, i ∉ r.inside ∧ i ∉ r.entered ∧ i ∉ r.left) ∧
      i ∉ (runTicks m ps).1.playerInside := by
  intro ps
  induction ps with
  | nil =>
    intro m h1 h2
    exact ⟨by simp [runTicks], by simp [runTicks, h2]⟩
  | cons p ps ih =>
    intro m h1 h2
    have hcur : i ∉ currentInsideSet m p := by
      simp [currentInsideSet, Finset.mem_union, Finset.mem_filter, containsById, h1]
    have hrest := ih { m with playerInside := currentInsideSet m p } h1 hcur
    simp only [runTicks, Update]
    refine ⟨?_, hrest.2⟩
    intro r hr
    rcases List.mem_cons.mp hr with hr | hr
    · subst hr
      refine ⟨hcur, ?_, ?_⟩
      · intro hm
        exact hcur (Finset.mem_sdiff.mp hm).1
      · intro hm
        exact h2 (Finset.mem_sdiff.mp hm).1
    · exact hrest.1 r hr

theorem lookupShape_after_delete (m : ColShapeManager) (i : String) :
    lookupShape ((DeleteColShape m i).2) i = none := by
  cases h : lookupShape m i with
  | none => simp [DeleteColShape, h]
  | some s =>
    simp only [DeleteColShape, h]
    simp only [lookupShape]
    rw [List.find?_eq_none]
    intro t ht
    have h2 := (List.mem_filter.mp ht).2
    simpa using h2

theorem playerInside_after_delete (m : ColShapeManager) (i : String) (s : ColShape)
    (h : lookupShape m i = some s) :
    ((DeleteColShape m i).2).playerInside = m.playerInside.erase i := by
  simp [DeleteColShape, h]

/-- Claim C8: after a successful delete of a shape that was in the previous
tick's inside set, deletion removes it from the previous-inside membership set
immediately, and no subsequent sequence of ticks ever emits a leave event for
that identifier (the shape is no longer registered, so it can never re-enter
the containment set). -/
theorem C8_no_leave_after_delete (m : ColShapeManager) (i : String)
    (hin : i ∈ m.playerInside) (hdel : (DeleteColShape m i).1 = true) :
    i ∉ ((DeleteColShape m i).2).playerInside ∧
    ∀ (ps : List Vec3), ∀ r ∈ (runTicks ((DeleteColShape m i).2) ps).2, i ∉ r.left := by
  obtain ⟨s, hs⟩ : ∃ s, lookupShape m i = some s := by
    cases h : lookupShape m i with
    | none => simp [DeleteColShape, h] at hdel
    | some s => exact ⟨s, rfl⟩
  have hpi := playerInside_after_delete m i s hs
  have hout : i ∉ ((DeleteColShape m i).2).playerInside := by
    rw [hpi]
    exact Finset.not_mem_erase _ _
  refine ⟨hout, fun ps r hr => ?_⟩
  exact ((dead_id_stays_out i ps ((DeleteColShape m i).2)
    (lookupShape_after_delete m i) hout).1 r hr).2.2

/-- The concrete state used by the C8/C9 witnesses: one circle "A" at the
origin with the tracked point inside it (previous tick at the origin). -/
def demoInside : ColShapeManager :=
  (Update (runOps [Op.circle "A" ⟨0, 0, 0⟩ 5 false]) ⟨0, 0, 0⟩).1

/-- Witness for C8 with the concrete inside-then-deleted state. -/
theorem C8_witness :
    "A" ∉ ((DeleteColShape demoInside "A").2).playerInside ∧
    ∀ (ps : List Vec3), ∀ r ∈ (runTicks ((DeleteColShape demoInside "A").2) ps).2,
      "A" ∉ r.left :=
  C8_no_leave_after_delete demoInside "A" (by decide) (by decide)

/-- Claim C9 as amended: after a successful delete of a shape that was in the
previous tick's inside set, the shape never appears in any later tick's
containment set and is never reported as left (no leave event at all, rather
than exactly one), and is not referenced by any later tick's events. -/
theorem C9_deleted_shape_gone (m : ColShapeManager) (i : String)
    (hin : i ∈ m.playerInside) (hdel : (DeleteColShape m i).1 = true) :
    ∀ (ps : List Vec3), ∀ r ∈ (runTicks ((DeleteColShape m i).2) ps).2,
      i ∉ r.inside ∧ i ∉ r.entered ∧ i ∉ r.left := by
  obtain ⟨s, hs⟩ : ∃ s, lookupShape m i = some s := by
    cases h : lookupShape m i with
    | none => simp [DeleteColShape, h] at hdel
    | some s => exact ⟨s, rfl⟩
  have hpi := playerInside_after_delete m i s hs
  have hout : i ∉ ((DeleteColShape m i).2).playerInside := by
    rw [hpi]
    exact Finset.not_mem_erase _ _
  exact fun ps r hr => (dead_id_stays_out i ps ((DeleteColShape m i).2)
    (lookupShape_after_delete m i) hout).1 r hr

/-- Witness for the amended C9 with the concrete inside-then-deleted state. -/
theorem C9_witness :
    (DeleteColShape demoInside "A").1 = true ∧
    ∀ r ∈ (runTicks ((DeleteColShape demoInside "A").2)
      [⟨100, 0, 0⟩, ⟨0, 0, 0⟩]).2, "A" ∉ r.inside ∧ "A" ∉ r.entered ∧ "A" ∉ r.left :=
  ⟨by decide,
   C9_deleted_shape_gone demoInside "A" (by decide) (by decide) [⟨100, 0, 0⟩, ⟨0, 0, 0⟩]⟩

/-- Counterexample to claim C9 as stated: a shape that is inside and then
deleted is reported as left zero times over the following ticks, not exactly
once. -/
theorem C9_counterexample_no_leave_report :
    "A" ∈ demoInside.playerInside ∧
    (DeleteColShape demoInside "A").1 = true ∧
    ((runTicks ((DeleteColShape demoInside "A").2)
      [⟨100, 0, 0⟩, ⟨0, 0, 0⟩, ⟨200, 0, 0⟩]).2.countP (fun r => decide ("A" ∈ r.left))) = 0 ∧
    ¬ ((runTicks ((DeleteColShape demoInside "A").2)
      [⟨100, 0, 0⟩, ⟨0, 0, 0⟩, ⟨200, 0, 0⟩]).2.countP (fun r => decide ("A" ∈ r.left))) = 1 := by
  refine ⟨by decide, by decide, by decide, by decide⟩

/-- The registry/grid/infinite-set consistency invariant maintained by the
create and delete operations. -/
def managerInv (m : ColShapeManager) : Prop :=
  (∀ s ∈ m.colShapes, s.infinite = false →
    s.occupiedCells ≠ [] ∧ s.id ∉ m.infiniteShapes ∧
      ∀ k, s.id ∈ m.grid k ↔ k ∈ s.occupiedCells) ∧
  (∀ s ∈ m.colShapes, s.infinite = true →
    s.occupiedCells = [] ∧ s.id ∈ m.infiniteShapes ∧ ∀ k, s.id ∉ m.grid k) ∧
  (∀ i ∈ m.infiniteShapes, ∃ s ∈ m.colShapes, s.id = i) ∧
  (∀ k i, i ∈ m.grid k → ∃ s ∈ m.colShapes, s.id = i)

theorem managerInv_empty : managerInv emptyManager := by
  unfold managerInv
  refine ⟨?_, ?_, ?_, ?_⟩ <;> simp [emptyManager]

theorem managerInv_finishCreate (m : ColShapeManager) (s0 : ColShape)
    (hm : managerInv m) (hfresh : lookupShape m s0.id = none)
    (hcells : s0.occupiedCells = [])
    (hx : s0.minX ≤ s0.maxX) (hy : s0.minY ≤ s0.maxY) :
    managerInv (finishCreate m s0) := by
  obtain ⟨hG, hI, hIL, hGL⟩ := hm
  have hfresh' : ∀ t ∈ m.colShapes, t.id ≠ s0.id := lookupShape_eq_none.mp hfresh
  have hnotinf : s0.id ∉ m.infiniteShapes := by
    intro hmem
    obtain ⟨t, ht, hti⟩ := hIL _ hmem
    exact hfresh' t ht hti
  have hnotgrid : ∀ k, s0.id ∉ m.grid k := by
    intro k hmem
    obtain ⟨t, ht, hti⟩ := hGL k _ hmem
    exact hfresh' t ht hti
  have hid : (MaybeMarkInfinite s0).id = s0.id := MaybeMarkInfinite_id s0
  have hoc : (MaybeMarkInfinite s0).occupiedCells = s0.occupiedCells :=
    MaybeMarkInfinite_occupiedCells s0
  by_cases hb : (MaybeMarkInfinite s0).infinite = true
  · have hfc : finishCreate m s0 =
        { m with colShapes := MaybeMarkInfinite s0 :: m.colShapes,
                 infiniteShapes := insert s0.id m.infiniteShapes } := by
      simp only [finishCreate, if_pos hb, hid]
    rw [hfc]
    unfold managerInv
    refine ⟨?_, ?_, ?_, ?_⟩
    · intro t ht htinf
      dsimp only at ht ⊢
      rcases List.mem_cons.mp ht with rfl | ht
      · rw [hb] at htinf
        cases htinf
      · obtain ⟨h1, h2, h3⟩ := hG t ht htinf
        refine ⟨h1, ?_, h3⟩
        intro hmem
        rcases Finset.mem_insert.mp hmem with heq | hmem
        · exact hfresh' t ht heq
        · exact h2 hmem
    · intro t ht htinf
      dsimp only at ht ⊢
      rcases List.mem_cons.mp ht with rfl | ht
      · refine ⟨by rw [hoc, hcells], ?_, ?_⟩
        · rw [hid]
          exact Finset.mem_insert_self _ _
        · intro k
          rw [hid]
          exact hnotgrid k
      · obtain ⟨h1, h2, h3⟩ := hI t ht htinf
        exact ⟨h1, Finset.mem_insert_of_mem h2, h3⟩
    · intro j hj
      dsimp only at hj ⊢
      rcases Finset.mem_insert.mp hj with rfl | hj
      · exact ⟨MaybeMarkInfinite s0, List.mem_cons_self _ _, hid⟩
      · obtain ⟨t, ht, hti⟩ := hIL j hj
        exact ⟨t, List.mem_cons_of_mem _ ht, hti⟩
    · intro k j hj
      dsimp only at hj ⊢
      obtain ⟨t, ht, hti⟩ := hGL k j hj
      exact ⟨t, List.mem_cons_of_mem _ ht, hti⟩
  · have hbf : (MaybeMarkInfinite s0).infinite = false := by
      cases hbv : (MaybeMarkInfinite s0).infinite
      · rfl
      · exact absurd hbv hb
    have hfc : finishCreate m s0 =
        { m with
          colShapes :=
            { MaybeMarkInfinite s0 with occupiedCells := shapeCells s0 } :: m.colShapes,
          grid := fun k => if k ∈ shapeCells s0 then insert s0.id (m.grid k) else m.grid k } := by
      simp only [finishCreate, if_neg hb, AddToGrid, shapeCells_MaybeMarkInfinite, hid]
    rw [hfc]
    unfold managerInv
    have hsc : shapeCells s0 ≠ [] := shapeCells_ne_nil hx hy
    refine ⟨?_, ?_, ?_, ?_⟩
    · intro t ht htinf
      dsimp only at ht ⊢
      rcases List.mem_cons.mp ht with rfl | ht
      · refine ⟨hsc, ?_, ?_⟩
        · rw [hid]
          exact hnotinf
        · intro k
          rw [hid]
          by_cases hk : k ∈ shapeCells s0
          · rw [if_pos hk]
            simp [hk]
          · rw [if_neg hk]
            simp [hk, hnotgrid k]
      · obtain ⟨h1, h2, h3⟩ := hG t ht htinf
        refine ⟨h1, h2, fun k => ?_⟩
        by_cases hk : k ∈ shapeCells s0
        · rw [if_pos hk, Finset.mem_insert]
          constructor
          · rintro (heq | hmem)
            · exact absurd heq (hfresh' t ht)
            · exact (h3 k).mp hmem
          · intro hk2
            exact Or.inr ((h3 k).mpr hk2)
        · rw [if_neg hk]
          exact h3 k
    · intro t ht htinf
      dsimp only at ht ⊢
      rcases List.mem_cons.mp ht with rfl | ht
      · rw [hbf] at htinf
        cases htinf
      · obtain ⟨h1, h2, h3⟩ := hI t ht htinf
        refine ⟨h1, h2, fun k => ?_⟩
        by_cases hk : k ∈ shapeCells s0
        · rw [if_pos hk, Finset.mem_insert]
          rintro (heq | hmem)
          · exact hfresh' t ht heq
          · exact h3 k hmem
        · rw [if_neg hk]
          exact h3 k
    · intro j hj
      dsimp only at hj ⊢
      obtain ⟨t, ht, hti⟩ := hIL j hj
      exact ⟨t, List.mem_cons_of_mem _ ht, hti⟩
    · intro k j hj
      dsimp only at hj ⊢
      by_cases hk : k ∈ shapeCells s0
      · rw [if_pos hk, Finset.mem_insert] at hj
        rcases hj with rfl | hj
        · exact ⟨{ MaybeMarkInfinite s0 with occupiedCells := shapeCells s0 },
            List.mem_cons_self _ _, hid⟩
        · obtain ⟨t, ht, hti⟩ := hGL k j hj
          exact ⟨t, List.mem_cons_of_mem _ ht, hti⟩
      · rw [if_neg hk] at hj
        obtain ⟨t, ht, hti⟩ := hGL k j hj
        exact ⟨t, List.mem_cons_of_mem _ ht, hti⟩

theorem managerInv_delete (m : ColShapeManager) (i : String) (hm : managerInv m) :
    managerInv ((DeleteColShape m i).2) := by
  obtain ⟨hG, hI, hIL, hGL⟩ := hm
  cases h : lookupShape m i with
  | none =>
    simp only [DeleteColShape, lookupShape] at *
    rw [h]
    exact ⟨hG, hI, hIL, hGL⟩
  | some s =>
    have hsmem : s ∈ m.colShapes := by
      have := List.mem_of_find?_eq_some h
      exact this
    have hsid : s.id = i := by
      have h2 := List.find?_some h
      simpa using h2
    have hfilter : ∀ t ∈ m.colShapes.filter (fun t => t.id != i), t ∈ m.colShapes ∧ t.id ≠ i := by
      intro t ht
      have htm := List.mem_filter.mp ht
      exact ⟨htm.1, by simpa using htm.2⟩
    have hmemfilter : ∀ t ∈ m.colShapes, t.id ≠ i →
        t ∈ m.colShapes.filter (fun t => t.id != i) := by
      intro t ht htne
      exact List.mem_filter.mpr ⟨ht, by simpa using htne⟩
    by_cases hb : s.infinite = true
    · obtain ⟨hc1, hc2, hc3⟩ := hI s hsmem hb
      have hcs : ((DeleteColShape m i).2).colShapes =
          m.colShapes.filter (fun t => t.id != i) := by
        simp [DeleteColShape, h]
      have hif : ((DeleteColShape m i).2).infiniteShapes = m.infiniteShapes.erase i := by
        simp [DeleteColShape, h, hb]
      have hgr : ∀ k, ((DeleteColShape m i).2).grid k = m.grid k := by
        intro k
        simp [DeleteColShape, h, hb]
      unfold managerInv
      rw [hcs, hif]
      refine ⟨?_, ?_, ?_, ?_⟩
      · intro t ht htinf
        obtain ⟨htm, htne⟩ := hfilter t ht
        obtain ⟨h1, h2, h3⟩ := hG t htm htinf
        refine ⟨h1, fun hmem => h2 (Finset.mem_of_mem_erase hmem), fun k => ?_⟩
        rw [hgr k]
        exact h3 k
      · intro t ht htinf
        obtain ⟨htm, htne⟩ := hfilter t ht
        obtain ⟨h1, h2, h3⟩ := hI t htm htinf
        refine ⟨h1, Finset.mem_erase.mpr ⟨htne, h2⟩, fun k => ?_⟩
        rw [hgr k]
        exact h3 k
      · intro j hj
        have hjne : j ≠ i := (Finset.mem_erase.mp hj).1
        obtain ⟨t, ht, hti⟩ := hIL j (Finset.mem_of_mem_erase hj)
        exact ⟨t, hmemfilter t ht (hti ▸ hjne), hti⟩
      · intro k j hj
        rw [hgr k] at hj
        obtain ⟨t, ht, hti⟩ := hGL k j hj
        have hjne : j ≠ i := by
          rintro rfl
          exact hc3 k (hsid ▸ hj)
        exact ⟨t, hmemfilter t ht (hti ▸ hjne), hti⟩
    · have hbf : s.infinite = false := by
        cases hbv : s.infinite
        · rfl
        · exact absurd hbv hb
      obtain ⟨hc1, hc2, hc3⟩ := hG s hsmem hbf
      have hcs : ((DeleteColShape m i).2).colShapes =
          m.colShapes.filter (fun t => t.id != i) := by
        simp [DeleteColShape, h]
      have hif : ((DeleteColShape m i).2).infiniteShapes = m.infiniteShapes := by
        simp [DeleteColShape, h, hbf]
      have hgr : ∀ k, ((DeleteColShape m i).2).grid k =
          if k ∈ s.occupiedCells then (m.grid k).erase i else m.grid k := by
        intro k
        simp [DeleteColShape, h, hbf]
      unfold managerInv
      rw [hcs, hif]
      refine ⟨?_, ?_, ?_, ?_⟩
      · intro t ht htinf
        obtain ⟨htm, htne⟩ := hfilter t ht
        obtain ⟨h1, h2, h3⟩ := hG t htm htinf
        refine ⟨h1, h2, fun k => ?_⟩
        rw [hgr k]
        by_cases hk : k ∈ s.occupiedCells
        · rw [if_pos hk, Finset.mem_erase]
          constructor
          · rintro ⟨hne, hmem⟩
            exact (h3 k).mp hmem
          · intro hk2
            exact ⟨htne, (h3 k).mpr hk2⟩
        · rw [if_neg hk]
          exact h3 k
      · intro t ht htinf
        obtain ⟨htm, htne⟩ := hfilter t ht
        obtain ⟨h1, h2, h3⟩ := hI t htm htinf
        refine ⟨h1, h2, fun k => ?_⟩
        rw [hgr k]
        by_cases hk : k ∈ s.occupiedCells
        · rw [if_pos hk]
          intro hmem
          exact h3 k (Finset.mem_of_mem_erase hmem)
        · rw [if_neg hk]
          exact h3 k
      · intro j hj
        obtain ⟨t, ht, hti⟩ := hIL j hj
        have hjne : j ≠ i := by
          rintro rfl
          exact hc2 (hsid ▸ hj)
        exact ⟨t, hmemfilter t ht (hti ▸ hjne), hti⟩
      · intro k j hj
        rw [hgr k] at hj
        by_cases hk : k ∈ s.occupiedCells
        · rw [if_pos hk] at hj
          have hjne : j ≠ i := (Finset.mem_erase.mp hj).1
          obtain ⟨t, ht, hti⟩ := hGL k j (Finset.mem_of_mem_erase hj)
          exact ⟨t, hmemfilter t ht (hti ▸ hjne), hti⟩
        · rw [if_neg hk] at hj
          obtain ⟨t, ht, hti⟩ := hGL k j hj
          have hjne : j ≠ i := by
            rintro rfl
            exact hk ((hc3 k).mp (hsid ▸ hj))
          exact ⟨t, hmemfilter t ht (hti ▸ hjne), hti⟩

theorem managerInv_applyOp (m : ColShapeManager) (op : Op)
    (hop : opRadiusOK op = true) (hm : managerInv m) : managerInv (applyOp m op) := by
  cases op with
  | circle i c r b =>
    have hr : (0 : ℚ) ≤ r := by simpa [opRadiusOK] using hop
    simp only [applyOp, CreateCircle]
    by_cases h : (lookupShape m i).isSome = true
    · rw [if_pos h]
      exact hm
    · rw [if_neg h]
      exact managerInv_finishCreate m _ hm (Option.not_isSome_iff_eq_none.mp h) rfl
        (by show c.x - r ≤ c.x + r; linarith) (by show c.y - r ≤ c.y + r; linarith)
  | cube i p1 p2 b =>
    simp only [applyOp, CreateCube]
    by_cases h : (lookupShape m i).isSome = true
    · rw [if_pos h]
      exact hm
    · rw [if_neg h]
      exact managerInv_finishCreate m _ hm (Option.not_isSome_iff_eq_none.mp h) rfl
        (min_le_max) (min_le_max)
  | cylinder i c r hh b =>
    have hr : (0 : ℚ) ≤ r := by simpa [opRadiusOK] using hop
    simp only [applyOp, CreateCylinder]
    by_cases h : (lookupShape m i).isSome = true
    · rw [if_pos h]
      exact hm
    · rw [if_neg h]
      exact managerInv_finishCreate m _ hm (Option.not_isSome_iff_eq_none.mp h) rfl
        (by show c.x - r ≤ c.x + r; linarith) (by show c.y - r ≤ c.y + r; linarith)
  | rectangleZ i x1 y1 x2 y2 bz hh b =>
    simp only [applyOp, CreateRectangleZ]
    by_cases h : (lookupShape m i).isSome = true
    · rw [if_pos h]
      exact hm
    · rw [if_neg h]
      exact managerInv_finishCreate m _ hm (Option.not_isSome_iff_eq_none.mp h) rfl
        (min_le_max) (min_le_max)
  | rectangle i x1 y1 x2 y2 hh b =>
    simp only [applyOp, CreateRectangle, CreateRectangleZ]
    by_cases h : (lookupShape m i).isSome = true
    · rw [if_pos h]
      exact hm
    · rw [if_neg h]
      exact managerInv_finishCreate m _ hm (Option.not_isSome_iff_eq_none.mp h) rfl
        (min_le_max) (min_le_max)
  | sphere i c r b =>
    have hr : (0 : ℚ) ≤ r := by simpa [opRadiusOK] using hop
    simp only [applyOp, CreateSphere]
    by_cases h : (lookupShape m i).isSome = true
    · rw [if_pos h]
      exact hm
    · rw [if_neg h]
      exact managerInv_finishCreate m _ hm (Option.not_isSome_iff_eq_none.mp h) rfl
        (by show c.x - r ≤ c.x + r; linarith) (by show c.y - r ≤ c.y + r; linarith)
  | remove i =>
    simpa only [applyOp] using managerInv_delete m i ⟨hm.1, hm.2.1, hm.2.2.1, hm.2.2.2⟩

theorem managerInv_foldl (ops : List Op) :
    ∀ m : ColShapeManager, managerInv m → (∀ op ∈ ops, opRadiusOK op = true) →
      managerInv (ops.foldl applyOp m) := by
  induction ops with
  | nil =>
    intro m hm _
    simpa using hm
  | cons op ops ih =>
    intro m hm hops
    rw [List.foldl_cons]
    exact ih _ (managerInv_applyOp m op (hops op (List.mem_cons_self _ _)) hm)
      (fun o ho => hops o (List.mem_cons_of_mem _ ho))

/-- Claim C6 as amended: after every sequence of create and delete operations
in which each Circle, Cylinder and Sphere create supplies a nonnegative
radius, every live shape satisfies exactly one of: (a) it is registered in the
spatial grid with a non-empty occupied-cells list, or (b) it is registered in
the infinite overflow set with an empty occupied-cells list. -/
theorem C6_grid_or_infinite (ops : List Op) (hops : ∀ op ∈ ops, opRadiusOK op = true) :
    ∀ s ∈ (runOps ops).colShapes,
      (InGridIndex (runOps ops) s ∨ InInfiniteIndex (runOps ops) s) ∧
      ¬(InGridIndex (runOps ops) s ∧ InInfiniteIndex (runOps ops) s) := by
  have hm : managerInv (runOps ops) := managerInv_foldl ops emptyManager managerInv_empty hops
  obtain ⟨hG, hI, hIL, hGL⟩ := hm
  intro s hs
  cases hb : s.infinite with
  | false =>
    obtain ⟨h1, h2, h3⟩ := hG s hs hb
    refine ⟨Or.inl ⟨h1, fun c hc => (h3 c).mpr hc, h2⟩, ?_⟩
    rintro ⟨hg, hi⟩
    exact h1 hi.1
  | true =>
    obtain ⟨h1, h2, h3⟩ := hI s hs hb
    refine ⟨Or.inr ⟨h1, h2, h3⟩, ?_⟩
    rintro ⟨hg, hi⟩
    exact hg.1 hi.1

/-- The shape record produced by `Op.circle "a" (0,0,0) 5 false`. -/
def gridDemoShape : ColShape :=
  { id := "a", type := ColShapeType.Circle, pos1 := ⟨0, 0, 0⟩, pos2 := ⟨0, 0, 0⟩,
    radius := 5, height := 0, infinite := false,
    minX := -5, maxX := 5, minY := -5, maxY := 5,
    occupiedCells := [(-1, -1), (-1, 0), (0, -1), (0, 0)] }

/-- Witness for the amended C6: one nonnegative-radius circle create. -/
theorem C6_witness :
    (InGridIndex (runOps [Op.circle "a" ⟨0, 0, 0⟩ 5 false]) gridDemoShape ∨
      InInfiniteIndex (runOps [Op.circle "a" ⟨0, 0, 0⟩ 5 false]) gridDemoShape) ∧
    ¬(InGridIndex (runOps [Op.circle "a" ⟨0, 0, 0⟩ 5 false]) gridDemoShape ∧
      InInfiniteIndex (runOps [Op.circle "a" ⟨0, 0, 0⟩ 5 false]) gridDemoShape) :=
  C6_grid_or_infinite [Op.circle "a" ⟨0, 0, 0⟩ 5 false] (by decide) gridDemoShape (by decide)

/-- The shape record produced by `Op.circle "a" (0,0,0) (-600) false`: an
inverted bounding box spanning no grid cells. -/
def negRadiusShape : ColShape :=
  { id := "a", type := ColShapeType.Circle, pos1 := ⟨0, 0, 0⟩, pos2 := ⟨0, 0, 0⟩,
    radius := -600, height := 0, infinite := false,
    minX := 600, maxX := -600, minY := 600, maxY := -600, occupiedCells := [] }

/-- Counterexample to claim C6 as stated: a circle created with radius -600
yields a live shape that is in neither index — its inverted bounding box spans
no grid cells (empty occupied-cells list, absent from every bucket) yet it is
not promoted to the infinite set. -/
theorem C6_counterexample_negative_radius :
    ∃ s ∈ (runOps [Op.circle "a" ⟨0, 0, 0⟩ (-600) false]).colShapes,
      ¬(InGridIndex (runOps [Op.circle "a" ⟨0, 0, 0⟩ (-600) false]) s ∨
        InInfiniteIndex (runOps [Op.circle "a" ⟨0, 0, 0⟩ (-600) false]) s) := by
  refine ⟨negRadiusShape, ?_, ?_⟩
  · decide
  · rintro (hg | hi)
    · exact hg.1 rfl
    · have h2 := hi.2.1
      revert h2
      decide
